import Mathlib

/-
Verification of aichat core_logic/logging_config.py (function setup_logging)
against its specification.

The Python source configures the process-wide logging facility:

  def setup_logging(log_level_str="INFO", log_to_file=False,
                    log_file="aichat_app.log"):
      log_level = getattr(logging, log_level_str.upper(), logging.INFO)
      formatter = logging.Formatter(
          "%(asctime)s - %(name)s - %(levelname)s - %(message)s",
          datefmt="%Y-%m-%d %H:%M:%S")
      logger = logging.getLogger()
      logger.setLevel(log_level)
      console_handler = logging.StreamHandler(sys.stdout)
      console_handler.setFormatter(formatter)
      logger.addHandler(console_handler)
      if log_to_file:
          file_handler = logging.FileHandler(log_file)
          file_handler.setFormatter(formatter)
          logger.addHandler(file_handler)
          logging.info("Logging also to file: " + log_file)
      logging.info("Logging initialized with level " + log_level_str)

The embedding below models the CPython logging facility as far as this
code exercises it: severity levels, the root logger (a level plus a
handler list), stream and file handlers at handler level NOTSET, the
shared formatter, module-level attribute lookup as performed by getattr,
and the ValueError raised by Logger.setLevel on a string that is not a
registered level name.  The file system is an association list from
paths to lists of written lines; an environment predicate says which
paths are writable, and FileHandler construction fails on unwritable
paths exactly as the underlying open call does.
-/

set_option autoImplicit false

namespace Aichat

/-- Severity constants of the logging module (logging.CRITICAL and so on). -/
def CRITICAL : Nat := 50

/-- Severity constant logging.ERROR. -/
def ERROR : Nat := 40

/-- Severity constant logging.WARNING. -/
def WARNING : Nat := 30

/-- Severity constant logging.INFO. -/
def INFO : Nat := 20

/-- Severity constant logging.DEBUG. -/
def DEBUG : Nat := 10

/-- Severity constant logging.NOTSET. -/
def NOTSET : Nat := 0

/-- A wall-clock time with second precision, the data rendered by the
datefmt string "%Y-%m-%d %H:%M:%S" of the formatter. -/
structure Tm where
  year : Nat
  month : Nat
  day : Nat
  hour : Nat
  minute : Nat
  second : Nat
  deriving DecidableEq, Repr

/-- The decimal digit character for n modulo 10. -/
def digitChar (n : Nat) : Char := Char.ofNat (48 + n % 10)

/-- Numeric value of a digit character. -/
def digitVal (c : Char) : Nat := c.toNat - 48

/-- Rendering of a time by strftime with format "%Y-%m-%d %H:%M:%S":
four zero-padded digits of the year, then zero-padded month, day, hour,
minute and second, with the separators of the datefmt string.  Faithful
for the in-range field values a real datetime carries. -/
def formatTime (t : Tm) : String :=
  String.mk [digitChar (t.year / 1000), digitChar (t.year / 100),
    digitChar (t.year / 10), digitChar t.year, '-',
    digitChar (t.month / 10), digitChar t.month, '-',
    digitChar (t.day / 10), digitChar t.day, ' ',
    digitChar (t.hour / 10), digitChar t.hour, ':',
    digitChar (t.minute / 10), digitChar t.minute, ':',
    digitChar (t.second / 10), digitChar t.second]

/-- Parse a timestamp of the exact shape produced by formatTime back into
its six fields; returns none on any other string. -/
def parseTimestamp (s : String) : Option Tm :=
  match s.toList with
  | [y3, y2, y1, y0, c1, m1, m0, c2, d1, d0, c3, h1, h0, c4, n1, n0, c5, s1, s0] =>
    if c1 = '-' ∧ c2 = '-' ∧ c3 = ' ' ∧ c4 = ':' ∧ c5 = ':' ∧
        y3.isDigit ∧ y2.isDigit ∧ y1.isDigit ∧ y0.isDigit ∧
        m1.isDigit ∧ m0.isDigit ∧ d1.isDigit ∧ d0.isDigit ∧
        h1.isDigit ∧ h0.isDigit ∧ n1.isDigit ∧ n0.isDigit ∧
        s1.isDigit ∧ s0.isDigit then
      some ⟨1000 * digitVal y3 + 100 * digitVal y2 + 10 * digitVal y1 + digitVal y0,
        10 * digitVal m1 + digitVal m0,
        10 * digitVal d1 + digitVal d0,
        10 * digitVal h1 + digitVal h0,
        10 * digitVal n1 + digitVal n0,
        10 * digitVal s1 + digitVal s0⟩
    else none
  | _ => none

/-- logging.getLevelName restricted to the numeric levels this program can
carry: the registered names, and the fallback "Level n" for others. -/
def levelToName (n : Nat) : String :=
  if n = 50 then "CRITICAL"
  else if n = 40 then "ERROR"
  else if n = 30 then "WARNING"
  else if n = 20 then "INFO"
  else if n = 10 then "DEBUG"
  else if n = 0 then "NOTSET"
  else "Level " ++ toString n

/-- A log record: creation time, emitting logger name, numeric severity
and message text. -/
structure Record where
  created : Tm
  name : String
  levelno : Nat
  msg : String
  deriving DecidableEq, Repr

/-- The formatter built by setup_logging, with format string
"%(asctime)s - %(name)s - %(levelname)s - %(message)s" and datefmt
"%Y-%m-%d %H:%M:%S", applied to a record. -/
def formatRecord (r : Record) : String :=
  formatTime r.created ++ " - " ++ r.name ++ " - " ++
    levelToName r.levelno ++ " - " ++ r.msg

/-- The destination of a handler: the console stream (sys.stdout) or a
file at a path. -/
inductive Sink where
  | console : Sink
  | file : String → Sink
  deriving DecidableEq, Repr

/-- A handler attached to the root logger.  Both handlers made by
setup_logging are created with handler level NOTSET, which is 0. -/
structure Handler where
  sink : Sink
  level : Nat
  deriving DecidableEq, Repr

/-- The file system visible to the file handlers: an association list
from paths to the lines so far written at that path. -/
abbrev FS := List (String × List String)

/-- Look up the lines recorded at a path, none when the file is absent. -/
def fsLookup : FS → String → Option (List String)
  | [], _ => none
  | (q, ls) :: rest, p => if q = p then some ls else fsLookup rest p

/-- Append one line at a path, creating the file when absent: the append
mode in which FileHandler opens its stream. -/
def fsAppend : FS → String → String → FS
  | [], p, line => [(p, [line])]
  | (q, ls) :: rest, p, line =>
    if q = p then (q, ls ++ [line]) :: rest
    else (q, ls) :: fsAppend rest p line

/-- Opening a file in append mode with delay off, as FileHandler does at
construction: the file now exists, existing content is kept. -/
def fsTouch (fs : FS) (p : String) : FS :=
  match fsLookup fs p with
  | some _ => fs
  | none => fs ++ [(p, [])]

/-- The process-wide logging state the program mutates: the root logger
level, its handler list, the lines written to standard output and the
file system. -/
structure LoggerState where
  level : Nat
  handlers : List Handler
  stdout : List String
  files : FS
  deriving DecidableEq, Repr

/-- A fresh logging state: the root logger starts at level WARNING with
no handlers, nothing written anywhere. -/
def freshState : LoggerState := ⟨30, [], [], []⟩

/-- Lines currently in the file at a path, empty when the file is absent. -/
def fileLines (st : LoggerState) (p : String) : List String :=
  (fsLookup st.files p).getD []

/-- Logger.getEffectiveLevel on the root logger: its own level when set,
NOTSET otherwise; the root logger has no parent to consult. -/
def getEffectiveLevel (st : LoggerState) : Nat :=
  if st.level ≠ 0 then st.level else NOTSET

/-- Handler.handle for one handler: emit the formatted record when the
record severity reaches the handler level, to the stream or the file. -/
def emitOne (st : LoggerState) (r : Record) (h : Handler) : LoggerState :=
  if h.level ≤ r.levelno then
    match h.sink with
    | Sink.console => { st with stdout := st.stdout ++ [formatRecord r] }
    | Sink.file p => { st with files := fsAppend st.files p (formatRecord r) }
  else st

/-- Logger.callHandlers on the root logger: each attached handler gets
the record in attachment order. -/
def callHandlers (st : LoggerState) (r : Record) : LoggerState :=
  st.handlers.foldl (fun s h => emitOne s r h) st

/-- A logging call at a severity, such as logging.info or logger.debug:
when the severity reaches the effective level of the root logger the
record is built and handed to every handler, otherwise nothing happens. -/
def logCall (st : LoggerState) (t : Tm) (name : String) (lvl : Nat)
    (msg : String) : LoggerState :=
  if getEffectiveLevel st ≤ lvl then callHandlers st ⟨t, name, lvl, msg⟩ else st

/-- A Python value a module attribute can hold, as far as the getattr in
setup_logging can observe: the integer level constants, the string
constant BASIC_FORMAT, and the dict constant _STYLES, which is neither
an integer nor a string. -/
inductive PyValue where
  | int : Nat → PyValue
  | str : String → PyValue
  | dict : PyValue
  deriving DecidableEq, Repr

/-- A Python exception setup_logging can raise: the ValueError or
TypeError out of Logger.setLevel, or the OSError out of opening the log
file. -/
inductive PyErr where
  | valueError : String → PyErr
  | typeError : String → PyErr
  | osError : String → PyErr
  deriving DecidableEq, Repr

/-- The attributes of the logging module whose name is its own uppercase
form, the ones getattr(logging, s.upper(), ...) can find: the level
constants CRITICAL, FATAL, ERROR, WARNING, WARN, INFO, DEBUG and NOTSET,
the string constant BASIC_FORMAT, and the private dict _STYLES. -/
def loggingModuleAttr (s : String) : Option PyValue :=
  if s = "CRITICAL" then some (PyValue.int 50)
  else if s = "FATAL" then some (PyValue.int 50)
  else if s = "ERROR" then some (PyValue.int 40)
  else if s = "WARNING" then some (PyValue.int 30)
  else if s = "WARN" then some (PyValue.int 30)
  else if s = "INFO" then some (PyValue.int 20)
  else if s = "DEBUG" then some (PyValue.int 10)
  else if s = "NOTSET" then some (PyValue.int 0)
  else if s = "BASIC_FORMAT" then
    some (PyValue.str "%(levelname)s:%(name)s:%(message)s")
  else if s = "_STYLES" then some PyValue.dict
  else none

/-- The registered level names of the logging module, the keys accepted
by Logger.setLevel when given a string. -/
def nameToLevel (s : String) : Option Nat :=
  if s = "CRITICAL" then some 50
  else if s = "FATAL" then some 50
  else if s = "ERROR" then some 40
  else if s = "WARN" then some 30
  else if s = "WARNING" then some 30
  else if s = "INFO" then some 20
  else if s = "DEBUG" then some 10
  else if s = "NOTSET" then some 0
  else none

/-- The level check performed by Logger.setLevel: an integer is taken as
given, a string must be a registered level name or ValueError is raised,
and any other value raises TypeError. -/
def checkLevel : PyValue → Except PyErr Nat
  | PyValue.int n => Except.ok n
  | PyValue.str s =>
    match nameToLevel s with
    | some n => Except.ok n
    | none => Except.error (PyErr.valueError ("Unknown level: " ++ s))
  | PyValue.dict =>
    Except.error (PyErr.typeError "Level not an integer or a valid string")

/-- str.upper of Python restricted to the ASCII strings these names are. -/
def pyUpper (s : String) : String := String.mk (s.data.map Char.toUpper)

/-- The two first level-handling lines of setup_logging together: the
getattr lookup with default logging.INFO, then the check setLevel makes. -/
def resolveLevel (log_level_str : String) : Except PyErr Nat :=
  checkLevel ((loggingModuleAttr (pyUpper log_level_str)).getD (PyValue.int 20))

/-- The body of setup_logging.  The writable predicate says which paths
the process may open for append; now is the clock time at which the two
initialization records of the function itself are created.  Steps, in
source order: resolve the level and set it on the root logger, attach a
console handler, and when log_to_file is set open the file (failing with
OSError on an unwritable path), attach a file handler and log an INFO
record naming the file; finally log an INFO record naming the level. -/
def setup_logging (writable : String → Bool) (now : Tm) (st : LoggerState)
    (log_level_str : String) (log_to_file : Bool) (log_file : String) :
    Except PyErr LoggerState :=
  match resolveLevel log_level_str with
  | Except.error e => Except.error e
  | Except.ok log_level =>
    let st1 : LoggerState := { st with level := log_level }
    let st2 : LoggerState :=
      { st1 with handlers := st1.handlers ++ [⟨Sink.console, 0⟩] }
    if log_to_file then
      if writable log_file then
        let st3 : LoggerState :=
          { st2 with
            files := fsTouch st2.files log_file,
            handlers := st2.handlers ++ [⟨Sink.file log_file, 0⟩] }
        let st4 := logCall st3 now "root" 20 ("Logging also to file: " ++ log_file)
        Except.ok (logCall st4 now "root" 20
          ("Logging initialized with level " ++ log_level_str))
      else Except.error (PyErr.osError log_file)
    else
      Except.ok (logCall st2 now "root" 20
        ("Logging initialized with level " ++ log_level_str))

/-- n successive invocations of setup_logging with the same arguments,
stopping at the first raised exception. -/
def setupIter (writable : String → Bool) (now : Tm) (log_level_str : String)
    (log_to_file : Bool) (log_file : String) :
    Nat → LoggerState → Except PyErr LoggerState
  | 0, st => Except.ok st
  | n + 1, st =>
    match setup_logging writable now st log_level_str log_to_file log_file with
    | Except.ok st' => setupIter writable now log_level_str log_to_file log_file n st'
    | Except.error e => Except.error e

/-- Number of console handlers in a handler list. -/
def countConsole (hs : List Handler) : Nat :=
  (hs.filter (fun h => decide (h.sink = Sink.console))).length

/-- Number of file handlers in a handler list. -/
def countFileHandlers (hs : List Handler) : Nat :=
  (hs.filter (fun h => decide (h.sink ≠ Sink.console))).length

/-- A batch of logging calls, each with its time, logger name, severity
and message, applied in order. -/
def applyLogs (st : LoggerState) : List (Tm × String × Nat × String) → LoggerState
  | [] => st
  | c :: rest => applyLogs (logCall st c.1 c.2.1 c.2.2.1 c.2.2.2) rest

/-! Helper lemmas about the embedding. -/

theorem digitVal_digitChar (n : Nat) : digitVal (digitChar n) = n % 10 := by
  unfold digitChar digitVal
  set m := n % 10 with hm
  have h : m < 10 := by
    rw [hm]; exact Nat.mod_lt _ (by norm_num)
  interval_cases m <;> rfl

theorem isDigit_digitChar (n : Nat) : (digitChar n).isDigit = true := by
  unfold digitChar
  set m := n % 10 with hm
  have h : m < 10 := by
    rw [hm]; exact Nat.mod_lt _ (by norm_num)
  interval_cases m <;> rfl

theorem parseTimestamp_formatTime (t : Tm) (h1 : t.year < 10000)
    (h2 : t.month < 100) (h3 : t.day < 100) (h4 : t.hour < 100)
    (h5 : t.minute < 100) (h6 : t.second < 100) :
    parseTimestamp (formatTime t) = some t := by
  obtain ⟨y, mo, d, h, mi, s⟩ := t
  simp only [formatTime, parseTimestamp, String.toList, isDigit_digitChar,
    digitVal_digitChar, and_true, true_and]
  simp only [Tm.year, Tm.month, Tm.day, Tm.hour, Tm.minute, Tm.second] at *
  rw [if_pos (by simp [isDigit_digitChar])]
  simp only [Option.some.injEq, Tm.mk.injEq, digitVal_digitChar]
  refine ⟨by omega, by omega, by omega, by omega, by omega, by omega⟩

theorem emitOne_handlers (st : LoggerState) (r : Record) (h : Handler) :
    (emitOne st r h).handlers = st.handlers := by
  unfold emitOne
  split
  · split <;> rfl
  · rfl

theorem emitOne_level (st : LoggerState) (r : Record) (h : Handler) :
    (emitOne st r h).level = st.level := by
  unfold emitOne
  split
  · split <;> rfl
  · rfl

theorem foldl_emit_handlers (r : Record) :
    ∀ (hs : List Handler) (st : LoggerState),
      (hs.foldl (fun s h => emitOne s r h) st).handlers = st.handlers := by
  intro hs
  induction hs with
  | nil => intro st; rfl
  | cons h t ih =>
    intro st
    simp only [List.foldl_cons]
    rw [ih, emitOne_handlers]

theorem foldl_emit_level (r : Record) :
    ∀ (hs : List Handler) (st : LoggerState),
      (hs.foldl (fun s h => emitOne s r h) st).level = st.level := by
  intro hs
  induction hs with
  | nil => intro st; rfl
  | cons h t ih =>
    intro st
    simp only [List.foldl_cons]
    rw [ih, emitOne_level]

theorem callHandlers_handlers (st : LoggerState) (r : Record) :
    (callHandlers st r).handlers = st.handlers :=
  foldl_emit_handlers r st.handlers st

theorem callHandlers_level (st : LoggerState) (r : Record) :
    (callHandlers st r).level = st.level :=
  foldl_emit_level r st.handlers st

theorem logCall_handlers (st : LoggerState) (t : Tm) (name : String)
    (lvl : Nat) (msg : String) :
    (logCall st t name lvl msg).handlers = st.handlers := by
  unfold logCall
  split
  · exact callHandlers_handlers st _
  · rfl

theorem logCall_level (st : LoggerState) (t : Tm) (name : String)
    (lvl : Nat) (msg : String) :
    (logCall st t name lvl msg).level = st.level := by
  unfold logCall
  split
  · exact callHandlers_level st _
  · rfl

theorem emitOne_stdout (st : LoggerState) (r : Record) (h : Handler) :
    (emitOne st r h).stdout = st.stdout ∨
      (emitOne st r h).stdout = st.stdout ++ [formatRecord r] := by
  unfold emitOne
  split
  · split
    · right; rfl
    · left; rfl
  · left; rfl

theorem foldl_emit_stdout_mem (r : Record) :
    ∀ (hs : List Handler) (st : LoggerState) (x : String),
      x ∈ (hs.foldl (fun s h => emitOne s r h) st).stdout →
      x ∈ st.stdout ∨ x = formatRecord r := by
  intro hs
  induction hs with
  | nil => intro st x hx; exact Or.inl hx
  | cons h t ih =>
    intro st x hx
    simp only [List.foldl_cons] at hx
    rcases ih (emitOne st r h) x hx with hmem | heq
    · rcases emitOne_stdout st r h with he | he
      · rw [he] at hmem; exact Or.inl hmem
      · rw [he] at hmem
        rcases List.mem_append.mp hmem with hmem' | hmem'
        · exact Or.inl hmem'
        · exact Or.inr (List.mem_singleton.mp hmem')
    · exact Or.inr heq

theorem fsLookup_fsAppend_self (fs : FS) (p line : String) :
    fsLookup (fsAppend fs p line) p = some ((fsLookup fs p).getD [] ++ [line]) := by
  induction fs with
  | nil => simp [fsAppend, fsLookup]
  | cons e rest ih =>
    obtain ⟨q, ls⟩ := e
    by_cases hq : q = p
    · subst hq
      simp [fsAppend, fsLookup]
    · simp [fsAppend, fsLookup, hq, ih]

theorem fsLookup_fsAppend_ne (fs : FS) (p line q : String) (hq : q ≠ p) :
    fsLookup (fsAppend fs p line) q = fsLookup fs q := by
  induction fs with
  | nil => simp [fsAppend, fsLookup, Ne.symm hq]
  | cons e rest ih =>
    obtain ⟨k, ls⟩ := e
    by_cases hk : k = p
    · subst hk
      simp [fsAppend, fsLookup, Ne.symm hq]
    · simp [fsAppend, fsLookup, hk, ih]

theorem fsLookup_append_single (fs : FS) (p q : String) (ls : List String) :
    fsLookup (fs ++ [(p, ls)]) q =
      match fsLookup fs q with
      | some v => some v
      | none => if p = q then some ls else none := by
  induction fs with
  | nil => simp [fsLookup]
  | cons e rest ih =>
    obtain ⟨k, v⟩ := e
    by_cases hk : k = q
    · simp [fsLookup, hk]
    · simp [fsLookup, hk, ih]

theorem fsLookup_fsTouch_self (fs : FS) (p : String) :
    fsLookup (fsTouch fs p) p = some ((fsLookup fs p).getD []) := by
  unfold fsTouch
  cases hl : fsLookup fs p with
  | some v => simp [hl]
  | none => simp [fsLookup_append_single, hl]

theorem fsLookup_fsTouch_ne (fs : FS) (p q : String) (hq : q ≠ p) :
    fsLookup (fsTouch fs p) q = fsLookup fs q := by
  unfold fsTouch
  cases hl : fsLookup fs p with
  | some v => rfl
  | none =>
    rw [fsLookup_append_single]
    cases hq' : fsLookup fs q with
    | some v => rfl
    | none => simp [Ne.symm hq]

theorem emitOne_files_mem (st : LoggerState) (r : Record) (h : Handler)
    (q : String) (x : String)
    (hx : x ∈ (fsLookup (emitOne st r h).files q).getD []) :
    x ∈ (fsLookup st.files q).getD [] ∨ x = formatRecord r := by
  unfold emitOne at hx
  by_cases hlv : h.level ≤ r.levelno
  · rw [if_pos hlv] at hx
    cases hs : h.sink with
    | console => rw [hs] at hx; exact Or.inl hx
    | file p =>
      rw [hs] at hx
      by_cases hq : q = p
      · subst hq
        simp only [fsLookup_fsAppend_self, Option.getD_some] at hx
        rcases List.mem_append.mp hx with hm | hm
        · exact Or.inl hm
        · exact Or.inr (List.mem_singleton.mp hm)
      · rw [show (({ st with files := fsAppend st.files p (formatRecord r) } :
            LoggerState)).files = fsAppend st.files p (formatRecord r) from rfl,
          fsLookup_fsAppend_ne st.files p (formatRecord r) q hq] at hx
        exact Or.inl hx
  · rw [if_neg hlv] at hx
    exact Or.inl hx

theorem foldl_emit_files_mem (r : Record) :
    ∀ (hs : List Handler) (st : LoggerState) (q x : String),
      x ∈ (fsLookup (hs.foldl (fun s h => emitOne s r h) st).files q).getD [] →
      x ∈ (fsLookup st.files q).getD [] ∨ x = formatRecord r := by
  intro hs
  induction hs with
  | nil => intro st q x hx; exact Or.inl hx
  | cons h t ih =>
    intro st q x hx
    simp only [List.foldl_cons] at hx
    rcases ih (emitOne st r h) q x hx with hmem | heq
    · exact emitOne_files_mem st r h q x hmem
    · exact Or.inr heq

theorem emitOne_files_console (st : LoggerState) (r : Record) (h : Handler)
    (hc : h.sink = Sink.console) : (emitOne st r h).files = st.files := by
  unfold emitOne
  split
  · rw [hc]
  · rfl

theorem foldl_emit_files_console (r : Record) :
    ∀ (hs : List Handler) (st : LoggerState),
      (∀ h ∈ hs, h.sink = Sink.console) →
      (hs.foldl (fun s h => emitOne s r h) st).files = st.files := by
  intro hs
  induction hs with
  | nil => intro st _; rfl
  | cons h t ih =>
    intro st hall
    simp only [List.foldl_cons]
    rw [ih (emitOne st r h) (fun h' hh' => hall h' (List.mem_cons_of_mem _ hh')),
      emitOne_files_console st r h (hall h (List.mem_cons_self _ _))]

theorem logCall_files_console (st : LoggerState) (t : Tm) (name : String)
    (lvl : Nat) (msg : String)
    (hall : ∀ h ∈ st.handlers, h.sink = Sink.console) :
    (logCall st t name lvl msg).files = st.files := by
  unfold logCall
  split
  · exact foldl_emit_files_console _ st.handlers st hall
  · rfl

theorem applyLogs_files_console (calls : List (Tm × String × Nat × String)) :
    ∀ (st : LoggerState), (∀ h ∈ st.handlers, h.sink = Sink.console) →
      (applyLogs st calls).files = st.files ∧
      (applyLogs st calls).handlers = st.handlers := by
  induction calls with
  | nil => intro st _; exact ⟨rfl, rfl⟩
  | cons c rest ih =>
    intro st hall
    have hh := logCall_handlers st c.1 c.2.1 c.2.2.1 c.2.2.2
    have hstep := ih (logCall st c.1 c.2.1 c.2.2.1 c.2.2.2) (by rw [hh]; exact hall)
    refine ⟨?_, ?_⟩
    · rw [show applyLogs st (c :: rest) =
        applyLogs (logCall st c.1 c.2.1 c.2.2.1 c.2.2.2) rest from rfl,
        hstep.1, logCall_files_console st c.1 c.2.1 c.2.2.1 c.2.2.2 hall]
    · rw [show applyLogs st (c :: rest) =
        applyLogs (logCall st c.1 c.2.1 c.2.2.1 c.2.2.2) rest from rfl,
        hstep.2, hh]

theorem getEffectiveLevel_eq (st : LoggerState) :
    getEffectiveLevel st = st.level := by
  unfold getEffectiveLevel NOTSET
  by_cases h : st.level ≠ 0
  · rw [if_pos h]
  · rw [if_neg h]
    push_neg at h
    omega

theorem setup_logging_ok (w : String → Bool) (now : Tm) (st : LoggerState)
    (s : String) (b : Bool) (p : String) (L : Nat)
    (hL : resolveLevel s = Except.ok L) (hw : b = true → w p = true) :
    ∃ st', setup_logging w now st s b p = Except.ok st' ∧
      st'.level = L ∧
      st'.handlers = st.handlers ++ [⟨Sink.console, 0⟩] ++
        (if b then [⟨Sink.file p, 0⟩] else []) := by
  cases b with
  | false =>
    simp only [setup_logging, hL, Bool.false_eq_true, if_false, if_neg]
    refine ⟨_, rfl, ?_, ?_⟩
    · rw [logCall_level]
    · rw [logCall_handlers]
      simp
  | true =>
    have hwp : w p = true := hw rfl
    simp only [setup_logging, hL, hwp, if_true]
    refine ⟨_, rfl, ?_, ?_⟩
    · rw [logCall_level, logCall_level]
    · rw [logCall_handlers, logCall_handlers]

theorem countConsole_append (xs ys : List Handler) :
    countConsole (xs ++ ys) = countConsole xs + countConsole ys := by
  simp [countConsole, List.filter_append]

theorem countFileHandlers_append (xs ys : List Handler) :
    countFileHandlers (xs ++ ys) = countFileHandlers xs + countFileHandlers ys := by
  simp [countFileHandlers, List.filter_append]

theorem foldl_emit_stdout_length (r : Record) :
    ∀ (hs : List Handler) (st : LoggerState), (∀ h ∈ hs, h.level = 0) →
      ((hs.foldl (fun s h => emitOne s r h) st).stdout).length =
        st.stdout.length + countConsole hs := by
  intro hs
  induction hs with
  | nil => intro st _; simp [countConsole]
  | cons h t ih =>
    intro st hall
    have h0 : h.level = 0 := hall h (List.mem_cons_self _ _)
    have ht : ∀ h' ∈ t, h'.level = 0 :=
      fun h' hh' => hall h' (List.mem_cons_of_mem _ hh')
    simp only [List.foldl_cons]
    rw [ih (emitOne st r h) ht]
    unfold emitOne
    rw [h0, if_pos (Nat.zero_le _)]
    cases hsk : h.sink with
    | console =>
      simp [countConsole, List.filter_cons, hsk]
      omega
    | file p =>
      simp [countConsole, List.filter_cons, hsk]

theorem logCall_stdout_length (st : LoggerState) (t : Tm) (name : String)
    (lvl : Nat) (msg : String) (hen : st.level ≤ lvl)
    (hall : ∀ h ∈ st.handlers, h.level = 0) :
    ((logCall st t name lvl msg).stdout).length =
      st.stdout.length + countConsole st.handlers := by
  unfold logCall
  rw [getEffectiveLevel_eq, if_pos hen]
  exact foldl_emit_stdout_length _ st.handlers st hall

theorem setupIter_spec (w : String → Bool) (now : Tm) (s : String) (b : Bool)
    (p : String) (L : Nat) (hL : resolveLevel s = Except.ok L)
    (hw : b = true → w p = true) :
    ∀ (n : Nat) (st : LoggerState),
      ∃ stn, setupIter w now s b p n st = Except.ok stn ∧
        countConsole stn.handlers = countConsole st.handlers + n ∧
        countFileHandlers stn.handlers =
          countFileHandlers st.handlers + (if b then n else 0) ∧
        (∀ h ∈ stn.handlers, h ∈ st.handlers ∨ h.level = 0) ∧
        (0 < n → stn.level = L) ∧
        (∃ tail, stn.handlers = st.handlers ++ tail) := by
  intro n
  induction n with
  | zero =>
    intro st
    refine ⟨st, rfl, by simp, by cases b <;> simp, fun h hh => Or.inl hh,
      fun h => absurd h (by omega), ⟨[], by simp⟩⟩
  | succ k ih =>
    intro st
    obtain ⟨st1, hok, hlvl, hhd⟩ := setup_logging_ok w now st s b p L hL hw
    obtain ⟨stn, hiter, hc, hf, hmem, hlv, tail, htail⟩ := ih st1
    have hstep : setupIter w now s b p (k + 1) st = Except.ok stn := by
      unfold setupIter
      rw [hok]
      exact hiter
    have hc1 : countConsole st1.handlers = countConsole st.handlers + 1 := by
      rw [hhd, countConsole_append, countConsole_append]
      cases b <;> simp [countConsole]
    have hf1 : countFileHandlers st1.handlers =
        countFileHandlers st.handlers + (if b then 1 else 0) := by
      rw [hhd, countFileHandlers_append, countFileHandlers_append]
      cases b <;> simp [countFileHandlers]
    have hfgoal : countFileHandlers stn.handlers =
        countFileHandlers st.handlers + (if b then k + 1 else 0) := by
      cases b with
      | false => simp_all
      | true =>
        simp_all
        omega
    refine ⟨stn, hstep, by omega, hfgoal, ?_, ?_, ?_⟩
    · intro h hh
      rcases hmem h hh with hm1 | hm0
      · rw [hhd] at hm1
        rcases List.mem_append.mp hm1 with hm2 | hm2
        · rcases List.mem_append.mp hm2 with hm3 | hm3
          · exact Or.inl hm3
          · right
            rw [List.mem_singleton.mp hm3]
        · right
          cases b with
          | false => simp at hm2
          | true =>
            rw [if_pos rfl] at hm2
            rw [List.mem_singleton.mp hm2]
      · exact Or.inr hm0
    · intro _
      cases k with
      | zero =>
        have : st1 = stn := by
          have h0 : setupIter w now s b p 0 st1 = Except.ok st1 := rfl
          rw [h0] at hiter
          exact Except.ok.inj hiter
        rw [← this, hlvl]
      | succ m => exact hlv (by omega)
    · refine ⟨[⟨Sink.console, 0⟩] ++ (if b then [⟨Sink.file p, 0⟩] else []) ++ tail, ?_⟩
      rw [htail, hhd]
      simp

theorem setup_logging_map_level (w : String → Bool) (now : Tm)
    (st : LoggerState) (s : String) (b : Bool) (p : String) (L : Nat)
    (hL : resolveLevel s = Except.ok L) :
    (setup_logging w now st s b p).map LoggerState.level =
      if b = true ∧ w p = false then Except.error (PyErr.osError p)
      else Except.ok L := by
  cases b with
  | false =>
    obtain ⟨st', hok, hlvl, _⟩ :=
      setup_logging_ok w now st s false p L hL (fun h => Bool.noConfusion h)
    rw [hok]
    simp [Except.map, hlvl]
  | true =>
    cases hwp : w p with
    | false =>
      simp [setup_logging, hL, hwp, Except.map]
    | true =>
      obtain ⟨st', hok, hlvl, _⟩ :=
        setup_logging_ok w now st s true p L hL (fun _ => hwp)
      rw [hok]
      simp [Except.map, hlvl, hwp]

/-! The claims. -/

/-- C1 counterexample: neither basic_format nor _styles is a recognized
level name, yet setup_logging does not fall back to INFO on them: the
getattr lookup finds the string attribute logging.BASIC_FORMAT for the
first and the dict attribute logging._STYLES for the second, and
setLevel raises ValueError on the string and TypeError on the dict, so
both calls fail. -/
theorem C1_counterexample :
    setup_logging (fun _ => true) ⟨2024, 1, 2, 3, 4, 5⟩ freshState
      "basic_format" false "aichat_app.log" =
      Except.error (PyErr.valueError
        "Unknown level: %(levelname)s:%(name)s:%(message)s") ∧
    setup_logging (fun _ => true) ⟨2024, 1, 2, 3, 4, 5⟩ freshState
      "_styles" false "aichat_app.log" =
      Except.error (PyErr.typeError
        "Level not an integer or a valid string") := ⟨rfl, rfl⟩

/-- C1 (amended): for any level name whose uppercase form is not an
attribute of the logging module, setup_logging succeeds and the
effective threshold of the root logger defaults to the INFO level; the
names excluded by that hypothesis do not default: on basic_format
setLevel raises ValueError and on _styles it raises TypeError. -/
theorem C1_unrecognized_defaults_to_info (w : String → Bool) (now : Tm)
    (st : LoggerState) (s : String) (b : Bool) (p : String)
    (hattr : loggingModuleAttr (pyUpper s) = none)
    (hw : b = true → w p = true) :
    ∃ st', setup_logging w now st s b p = Except.ok st' ∧
      getEffectiveLevel st' = INFO := by
  have hL : resolveLevel s = Except.ok 20 := by
    unfold resolveLevel
    rw [hattr]
    rfl
  obtain ⟨st', hok, hlvl, _⟩ := setup_logging_ok w now st s b p 20 hL hw
  refine ⟨st', hok, ?_⟩
  rw [getEffectiveLevel_eq, hlvl]
  rfl

/-- C1 witness: the unrecognized name verbose is not a module attribute,
and setup_logging with it succeeds with threshold INFO. -/
theorem C1_witness :
    ∃ st', setup_logging (fun _ => true) ⟨2024, 1, 2, 3, 4, 5⟩ freshState
      "verbose" false "aichat_app.log" = Except.ok st' ∧
      getEffectiveLevel st' = INFO :=
  C1_unrecognized_defaults_to_info (fun _ => true) ⟨2024, 1, 2, 3, 4, 5⟩
    freshState "verbose" false "aichat_app.log" rfl (fun _ => rfl)

/-- C3: for every severity name that the getattr lookup resolves to a
numeric level L, in whatever letter case, setup_logging succeeds and
afterwards the effective minimum-severity threshold of the root logger
equals L. -/
theorem C3_valid_level_sets_threshold (w : String → Bool) (now : Tm)
    (st : LoggerState) (s : String) (b : Bool) (p : String) (L : Nat)
    (hname : loggingModuleAttr (pyUpper s) = some (PyValue.int L))
    (hw : b = true → w p = true) :
    ∃ st', setup_logging w now st s b p = Except.ok st' ∧
      getEffectiveLevel st' = L := by
  have hL : resolveLevel s = Except.ok L := by
    unfold resolveLevel
    rw [hname]
    rfl
  obtain ⟨st', hok, hlvl, _⟩ := setup_logging_ok w now st s b p L hL hw
  exact ⟨st', hok, by rw [getEffectiveLevel_eq, hlvl]⟩

/-- C3 witness: setup_logging with the name Debug leaves the root logger
at effective threshold 10, the DEBUG level. -/
theorem C3_witness :
    ∃ st', setup_logging (fun _ => true) ⟨2024, 1, 2, 3, 4, 5⟩ freshState
      "Debug" false "aichat_app.log" = Except.ok st' ∧
      getEffectiveLevel st' = 10 :=
  C3_valid_level_sets_threshold (fun _ => true) ⟨2024, 1, 2, 3, 4, 5⟩
    freshState "Debug" false "aichat_app.log" 10 rfl (fun _ => rfl)

/-- C7: with file logging enabled and a level name that resolves,
setup_logging raises exactly the OSError of the file-sink attachment
when the path is unwritable, and succeeds whenever the path is writable:
the open of the file sink is the only failure mode arising from the file
path. -/
theorem C7_unwritable_path_propagates (w : String → Bool) (now : Tm)
    (st : LoggerState) (s : String) (p : String) (L : Nat)
    (hL : resolveLevel s = Except.ok L) :
    (w p = false →
      setup_logging w now st s true p = Except.error (PyErr.osError p)) ∧
    (w p = true → ∃ st', setup_logging w now st s true p = Except.ok st') := by
  constructor
  · intro hwp
    simp [setup_logging, hL, hwp]
  · intro hwp
    obtain ⟨st', hok, _⟩ := setup_logging_ok w now st s true p L hL (fun _ => hwp)
    exact ⟨st', hok⟩

/-- C7 witness: on the unwritable path bad the call raises OSError for
that path; on a writable path it succeeds. -/
theorem C7_witness :
    setup_logging (fun q => !(q == "bad")) ⟨2024, 1, 2, 3, 4, 5⟩ freshState
      "INFO" true "bad" = Except.error (PyErr.osError "bad") ∧
    ∃ st', setup_logging (fun _ => true) ⟨2024, 1, 2, 3, 4, 5⟩ freshState
      "INFO" true "ok.log" = Except.ok st' :=
  ⟨(C7_unwritable_path_propagates (fun q => !(q == "bad")) ⟨2024, 1, 2, 3, 4, 5⟩
      freshState "INFO" "bad" 20 rfl).1 rfl,
   (C7_unwritable_path_propagates (fun _ => true) ⟨2024, 1, 2, 3, 4, 5⟩
      freshState "INFO" "ok.log" 20 rfl).2 rfl⟩

/-- C9: level-name matching is case-insensitive: when the uppercase form
of a name s is one of the standard severity names, setup_logging with s
sets the same threshold as setup_logging with the all-uppercase name. -/
theorem C9_case_insensitive (w : String → Bool) (now : Tm)
    (st : LoggerState) (b : Bool) (p : String) (s U : String)
    (hU : pyUpper s = U)
    (hstd : U = "DEBUG" ∨ U = "INFO" ∨ U = "WARNING" ∨ U = "ERROR" ∨
      U = "CRITICAL") :
    (setup_logging w now st s b p).map LoggerState.level =
      (setup_logging w now st U b p).map LoggerState.level := by
  rcases hstd with h | h | h | h | h <;> subst h
  · rw [setup_logging_map_level w now st s b p 10
      (by unfold resolveLevel; rw [hU]; rfl),
      setup_logging_map_level w now st "DEBUG" b p 10 rfl]
  · rw [setup_logging_map_level w now st s b p 20
      (by unfold resolveLevel; rw [hU]; rfl),
      setup_logging_map_level w now st "INFO" b p 20 rfl]
  · rw [setup_logging_map_level w now st s b p 30
      (by unfold resolveLevel; rw [hU]; rfl),
      setup_logging_map_level w now st "WARNING" b p 30 rfl]
  · rw [setup_logging_map_level w now st s b p 40
      (by unfold resolveLevel; rw [hU]; rfl),
      setup_logging_map_level w now st "ERROR" b p 40 rfl]
  · rw [setup_logging_map_level w now st s b p 50
      (by unfold resolveLevel; rw [hU]; rfl),
      setup_logging_map_level w now st "CRITICAL" b p 50 rfl]

/-- C9 witness: the mixed-case name dEbUg sets the same threshold as
DEBUG. -/
theorem C9_witness :
    (setup_logging (fun _ => true) ⟨2024, 1, 2, 3, 4, 5⟩ freshState
        "dEbUg" false "aichat_app.log").map LoggerState.level =
      (setup_logging (fun _ => true) ⟨2024, 1, 2, 3, 4, 5⟩ freshState
        "DEBUG" false "aichat_app.log").map LoggerState.level :=
  C9_case_insensitive (fun _ => true) ⟨2024, 1, 2, 3, 4, 5⟩ freshState
    false "aichat_app.log" "dEbUg" "DEBUG" rfl (Or.inl rfl)

/-- C2 counterexample: with level INFO, file logging enabled on path
t.log and a fresh state, after one INFO message the file contains three
lines, not exactly one: the two initialization records of setup_logging
itself precede the message line. -/
theorem C2_counterexample :
    ¬ ((setup_logging (fun _ => true) ⟨2024, 1, 2, 3, 4, 5⟩ freshState "INFO"
        true "t.log").map (fun st' =>
          (fileLines (logCall st' ⟨2024, 1, 2, 3, 4, 6⟩ "root" 20 "y")
            "t.log").length) = Except.ok 1) := by
  have h : ((setup_logging (fun _ => true) ⟨2024, 1, 2, 3, 4, 5⟩ freshState
      "INFO" true "t.log").map (fun st' =>
        (fileLines (logCall st' ⟨2024, 1, 2, 3, 4, 6⟩ "root" 20 "y")
          "t.log").length) = Except.ok 3) := rfl
  intro hcl
  rw [h] at hcl
  exact absurd (Except.ok.inj hcl) (by norm_num)

/-- C2 (amended): with file logging enabled on a writable path P and a
level name resolving to L, after one log call at severity at least L
with message m the file at P exists and its last line is the formatted
record of m; it is the only line exactly when L is above INFO, and when
L is at most INFO it is preceded by the two initialization records
setup_logging itself emitted. -/
theorem C2_file_line_for_message (w : String → Bool) (t t2 : Tm)
    (s p nm m : String) (L lvl : Nat)
    (hL : resolveLevel s = Except.ok L) (hw : w p = true) (hlvl : L ≤ lvl) :
    ∃ st', setup_logging w t freshState s true p = Except.ok st' ∧
      fileLines (logCall st' t2 nm lvl m) p =
        (if L ≤ 20 then
          [formatRecord ⟨t, "root", 20, "Logging also to file: " ++ p⟩,
           formatRecord ⟨t, "root", 20, "Logging initialized with level " ++ s⟩]
         else []) ++ [formatRecord ⟨t2, nm, lvl, m⟩] := by
  simp only [setup_logging, hL, hw, if_true, freshState]
  refine ⟨_, rfl, ?_⟩
  by_cases h20 : L ≤ 20
  · simp [logCall, getEffectiveLevel_eq, callHandlers, emitOne, fileLines,
      fsAppend, fsTouch, fsLookup, h20, hlvl, Nat.zero_le, List.foldl]
  · simp [logCall, getEffectiveLevel_eq, callHandlers, emitOne, fileLines,
      fsAppend, fsTouch, fsLookup, h20, hlvl, Nat.zero_le, List.foldl]

/-- C2 witness: at level ERROR the initialization records are filtered
and the file holds exactly the one formatted message line. -/
theorem C2_witness :
    ∃ st', setup_logging (fun _ => true) ⟨2024, 1, 2, 3, 4, 5⟩ freshState
      "ERROR" true "t.log" = Except.ok st' ∧
      fileLines (logCall st' ⟨2024, 1, 2, 3, 4, 6⟩ "root" 40 "boom") "t.log" =
        (if 40 ≤ 20 then
          [formatRecord ⟨⟨2024, 1, 2, 3, 4, 5⟩, "root", 20,
            "Logging also to file: " ++ "t.log"⟩,
           formatRecord ⟨⟨2024, 1, 2, 3, 4, 5⟩, "root", 20,
            "Logging initialized with level " ++ "ERROR"⟩]
         else []) ++ [formatRecord ⟨⟨2024, 1, 2, 3, 4, 6⟩, "root", 40, "boom"⟩] :=
  C2_file_line_for_message (fun _ => true) ⟨2024, 1, 2, 3, 4, 5⟩
    ⟨2024, 1, 2, 3, 4, 6⟩ "ERROR" "t.log" "root" "boom" 40 40 rfl rfl
    (by norm_num)

/-- C4: setup_logging is not idempotent: n invocations on a fresh state
leave n console handlers on the root logger, plus n file handlers when
file logging is enabled, a single subsequent enabled log call writes n
duplicate lines to standard output, and no invocation ever removes a
previously attached handler. -/
theorem C4_not_idempotent (w : String → Bool) (now : Tm) (s : String)
    (b : Bool) (p : String) (L : Nat) (hL : resolveLevel s = Except.ok L)
    (hw : b = true → w p = true) (n : Nat) (hn : 1 ≤ n) :
    (∃ stn, setupIter w now s b p n freshState = Except.ok stn ∧
      countConsole stn.handlers = n ∧
      countFileHandlers stn.handlers = (if b then n else 0) ∧
      (∀ t nm lvl m, L ≤ lvl →
        ((logCall stn t nm lvl m).stdout).length = stn.stdout.length + n)) ∧
    (∀ st st', setup_logging w now st s b p = Except.ok st' →
      ∃ tail, st'.handlers = st.handlers ++ tail ∧ tail ≠ []) := by
  constructor
  · obtain ⟨stn, hiter, hc, hf, hmem, hlv, htail⟩ :=
      setupIter_spec w now s b p L hL hw n freshState
    refine ⟨stn, hiter, ?_, ?_, ?_⟩
    · rw [hc]
      simp [freshState, countConsole]
    · rw [hf]
      cases b <;> simp [freshState, countFileHandlers]
    · intro t nm lvl m hlvl
      have hall : ∀ h ∈ stn.handlers, h.level = 0 := by
        intro h hh
        rcases hmem h hh with h1 | h2
        · simp [freshState] at h1
        · exact h2
      rw [logCall_stdout_length stn t nm lvl m (by rw [hlv hn]; exact hlvl) hall,
        hc]
      simp [freshState, countConsole]
  · intro st st' hok
    obtain ⟨st0, hok0, _, hhd0⟩ := setup_logging_ok w now st s b p L hL hw
    rw [hok] at hok0
    have hst : st' = st0 := Except.ok.inj hok0
    refine ⟨[⟨Sink.console, 0⟩] ++ (if b then [⟨Sink.file p, 0⟩] else []), ?_, ?_⟩
    · rw [hst, hhd0]
      simp
    · cases b <;> simp

/-- C4 witness: two invocations with file logging on leave two console
and two file handlers, and one DEBUG-enabled log call adds two lines to
standard output. -/
theorem C4_witness :
    ∃ stn, setupIter (fun _ => true) ⟨2024, 1, 2, 3, 4, 5⟩ "DEBUG" true
      "t.log" 2 freshState = Except.ok stn ∧
      countConsole stn.handlers = 2 ∧
      countFileHandlers stn.handlers = 2 ∧
      ((logCall stn ⟨2024, 1, 2, 3, 4, 6⟩ "root" 20 "y").stdout).length =
        stn.stdout.length + 2 := by
  obtain ⟨⟨stn, h1, h2, h3, h4⟩, _⟩ :=
    C4_not_idempotent (fun _ => true) ⟨2024, 1, 2, 3, 4, 5⟩ "DEBUG" true
      "t.log" 10 rfl (fun _ => rfl) 2 (by norm_num)
  exact ⟨stn, h1, h2, by simpa using h3,
    h4 ⟨2024, 1, 2, 3, 4, 6⟩ "root" 20 "y" (by norm_num)⟩

/-- C5: after setup_logging with a resolving level L and file logging on
a writable path, a log call with severity strictly below L changes
nothing, neither sink included, and a log call at or above L appends the
formatted line to standard output and to the file. -/
theorem C5_both_sinks_respect_threshold (w : String → Bool) (t t2 : Tm)
    (s p nm m : String) (L lvl : Nat)
    (hL : resolveLevel s = Except.ok L) (hw : w p = true) :
    ∃ st', setup_logging w t freshState s true p = Except.ok st' ∧
      (lvl < L → logCall st' t2 nm lvl m = st') ∧
      (L ≤ lvl →
        (logCall st' t2 nm lvl m).stdout =
          st'.stdout ++ [formatRecord ⟨t2, nm, lvl, m⟩] ∧
        fileLines (logCall st' t2 nm lvl m) p =
          fileLines st' p ++ [formatRecord ⟨t2, nm, lvl, m⟩]) := by
  simp only [setup_logging, hL, hw, if_true, freshState]
  refine ⟨_, rfl, ?_, ?_⟩
  · intro hlt
    have hnle : ¬ (L ≤ lvl) := by omega
    by_cases h20 : L ≤ 20 <;>
      simp [logCall, getEffectiveLevel_eq, callHandlers, emitOne, fileLines,
        fsAppend, fsTouch, fsLookup, h20, hnle, Nat.zero_le, List.foldl]
  · intro hge
    by_cases h20 : L ≤ 20 <;>
      simp [logCall, getEffectiveLevel_eq, callHandlers, emitOne, fileLines,
        fsAppend, fsTouch, fsLookup, h20, hge, Nat.zero_le, List.foldl]

/-- C5 witness: at level INFO a DEBUG message changes nothing and an
INFO message lands in both sinks. -/
theorem C5_witness :
    ∃ st', setup_logging (fun _ => true) ⟨2024, 1, 2, 3, 4, 5⟩ freshState
      "INFO" true "t.log" = Except.ok st' ∧
      logCall st' ⟨2024, 1, 2, 3, 4, 6⟩ "root" 10 "x" = st' ∧
      (logCall st' ⟨2024, 1, 2, 3, 4, 6⟩ "root" 20 "y").stdout =
        st'.stdout ++ [formatRecord ⟨⟨2024, 1, 2, 3, 4, 6⟩, "root", 20, "y"⟩] ∧
      fileLines (logCall st' ⟨2024, 1, 2, 3, 4, 6⟩ "root" 20 "y") "t.log" =
        fileLines st' "t.log" ++
          [formatRecord ⟨⟨2024, 1, 2, 3, 4, 6⟩, "root", 20, "y"⟩] := by
  obtain ⟨st1, hok1, hlow, _⟩ :=
    C5_both_sinks_respect_threshold (fun _ => true) ⟨2024, 1, 2, 3, 4, 5⟩
      ⟨2024, 1, 2, 3, 4, 6⟩ "INFO" "t.log" "root" "x" 20 10 rfl rfl
  obtain ⟨st2, hok2, _, hhigh⟩ :=
    C5_both_sinks_respect_threshold (fun _ => true) ⟨2024, 1, 2, 3, 4, 5⟩
      ⟨2024, 1, 2, 3, 4, 6⟩ "INFO" "t.log" "root" "y" 20 20 rfl rfl
  rw [hok1] at hok2
  have heq : st1 = st2 := Except.ok.inj hok2
  obtain ⟨ha, hb⟩ := hhigh (by norm_num)
  exact ⟨st1, hok1, hlow (by norm_num), by rw [heq]; exact ha,
    by rw [heq]; exact hb⟩

/-- C6: every line a logging call adds to standard output or to any
file is the formatted record, whose text is the timestamp, the logger
name, the severity name and the message in this fixed order separated
by the three-character separator, and the second-precision timestamp
parses back to the creation time of the record. -/
theorem C6_emitted_line_format (st : LoggerState) (t : Tm) (nm : String)
    (lvl : Nat) (m : String) :
    (∀ line, line ∈ (logCall st t nm lvl m).stdout →
      line ∈ st.stdout ∨ line = formatRecord ⟨t, nm, lvl, m⟩) ∧
    (∀ p line, line ∈ fileLines (logCall st t nm lvl m) p →
      line ∈ fileLines st p ∨ line = formatRecord ⟨t, nm, lvl, m⟩) ∧
    formatRecord ⟨t, nm, lvl, m⟩ =
      formatTime t ++ " - " ++ nm ++ " - " ++ levelToName lvl ++ " - " ++ m ∧
    (t.year < 10000 → t.month < 100 → t.day < 100 → t.hour < 100 →
      t.minute < 100 → t.second < 100 →
      parseTimestamp (formatTime t) = some t) := by
  refine ⟨?_, ?_, rfl, fun h1 h2 h3 h4 h5 h6 =>
    parseTimestamp_formatTime t h1 h2 h3 h4 h5 h6⟩
  · intro line hline
    unfold logCall at hline
    by_cases hen : getEffectiveLevel st ≤ lvl
    · rw [if_pos hen] at hline
      exact foldl_emit_stdout_mem _ st.handlers st line hline
    · rw [if_neg hen] at hline
      exact Or.inl hline
  · intro p line hline
    unfold logCall at hline
    by_cases hen : getEffectiveLevel st ≤ lvl
    · rw [if_pos hen] at hline
      exact foldl_emit_files_mem _ st.handlers st p line hline
    · rw [if_neg hen] at hline
      exact Or.inl hline

/-- C6 witness: the timestamp of a concrete time is parseable back to
that time. -/
theorem C6_witness :
    parseTimestamp (formatTime ⟨2024, 1, 2, 3, 4, 5⟩) =
      some ⟨2024, 1, 2, 3, 4, 5⟩ :=
  (C6_emitted_line_format freshState ⟨2024, 1, 2, 3, 4, 5⟩ "root" 20 "y").2.2.2
    (by norm_num) (by norm_num) (by norm_num) (by norm_num) (by norm_num)
    (by norm_num)

/-- C8: with file logging disabled, setup_logging creates no file, and
no sequence of subsequent log calls writes any file: the file system
stays empty and every path stays absent. -/
theorem C8_no_file_when_disabled (w : String → Bool) (t : Tm) (s p : String)
    (L : Nat) (hL : resolveLevel s = Except.ok L) :
    ∃ st', setup_logging w t freshState s false p = Except.ok st' ∧
      st'.files = [] ∧
      ∀ calls : List (Tm × String × Nat × String),
        (applyLogs st' calls).files = [] ∧
        ∀ q, fsLookup (applyLogs st' calls).files q = none := by
  simp only [setup_logging, hL, freshState, Bool.false_eq_true, if_false,
    List.nil_append]
  refine ⟨_, rfl, ?_, ?_⟩
  · rw [logCall_files_console _ _ _ _ _ ?_]
    intro h hh
    simp at hh
    rw [hh]
  · intro calls
    have hall : ∀ h ∈ (logCall
        (⟨L, [⟨Sink.console, 0⟩], [], []⟩ : LoggerState) t "root" 20
        ("Logging initialized with level " ++ s)).handlers,
        h.sink = Sink.console := by
      rw [logCall_handlers]
      intro h hh
      simp at hh
      rw [hh]
    have happ := applyLogs_files_console calls _ hall
    have hfl : (logCall (⟨L, [⟨Sink.console, 0⟩], [], []⟩ : LoggerState) t
        "root" 20 ("Logging initialized with level " ++ s)).files = [] := by
      rw [logCall_files_console _ _ _ _ _ ?_]
      intro h hh
      simp at hh
      rw [hh]
    refine ⟨by rw [happ.1, hfl], fun q => by rw [happ.1, hfl]; rfl⟩

/-- C8 witness: the theorem applied with level DEBUG and path t.log. -/
theorem C8_witness :
    ∃ st', setup_logging (fun _ => true) ⟨2024, 1, 2, 3, 4, 5⟩ freshState
      "DEBUG" false "t.log" = Except.ok st' ∧
      st'.files = [] ∧
      ∀ calls : List (Tm × String × Nat × String),
        (applyLogs st' calls).files = [] ∧
        ∀ q, fsLookup (applyLogs st' calls).files q = none :=
  C8_no_file_when_disabled (fun _ => true) ⟨2024, 1, 2, 3, 4, 5⟩ "DEBUG"
    "t.log" 10 rfl

/-- C10: setup_logging itself logs during initialization: with a level
L at most INFO it always emits the INFO record announcing the level, and
with file logging enabled it first emits the INFO record naming the
file path; both records reach every attached sink, so on a fresh state
neither standard output nor the file is empty right after the call. -/
theorem C10_initialization_records (w : String → Bool) (t : Tm)
    (s p : String) (L : Nat) (hL : resolveLevel s = Except.ok L)
    (h20 : L ≤ 20) (hw : w p = true) :
    (∃ st', setup_logging w t freshState s true p = Except.ok st' ∧
      st'.stdout =
        [formatRecord ⟨t, "root", 20, "Logging also to file: " ++ p⟩,
         formatRecord ⟨t, "root", 20, "Logging initialized with level " ++ s⟩] ∧
      fileLines st' p =
        [formatRecord ⟨t, "root", 20, "Logging also to file: " ++ p⟩,
         formatRecord ⟨t, "root", 20, "Logging initialized with level " ++ s⟩]) ∧
    (∃ st2, setup_logging w t freshState s false p = Except.ok st2 ∧
      st2.stdout =
        [formatRecord ⟨t, "root", 20, "Logging initialized with level " ++ s⟩]) := by
  constructor
  · simp only [setup_logging, hL, hw, if_true, freshState]
    refine ⟨_, rfl, ?_, ?_⟩ <;>
      simp [logCall, getEffectiveLevel_eq, callHandlers, emitOne, fileLines,
        fsAppend, fsTouch, fsLookup, h20, Nat.zero_le, List.foldl]
  · simp only [setup_logging, hL, freshState, Bool.false_eq_true, if_false]
    refine ⟨_, rfl, ?_⟩
    simp [logCall, getEffectiveLevel_eq, callHandlers, emitOne, h20,
      Nat.zero_le, List.foldl]

/-- C10 witness: the theorem applied at level INFO with path t.log. -/
theorem C10_witness :
    (∃ st', setup_logging (fun _ => true) ⟨2024, 1, 2, 3, 4, 5⟩ freshState
      "INFO" true "t.log" = Except.ok st' ∧
      st'.stdout =
        [formatRecord ⟨⟨2024, 1, 2, 3, 4, 5⟩, "root", 20,
          "Logging also to file: " ++ "t.log"⟩,
         formatRecord ⟨⟨2024, 1, 2, 3, 4, 5⟩, "root", 20,
          "Logging initialized with level " ++ "INFO"⟩] ∧
      fileLines st' "t.log" =
        [formatRecord ⟨⟨2024, 1, 2, 3, 4, 5⟩, "root", 20,
          "Logging also to file: " ++ "t.log"⟩,
         formatRecord ⟨⟨2024, 1, 2, 3, 4, 5⟩, "root", 20,
          "Logging initialized with level " ++ "INFO"⟩]) ∧
    (∃ st2, setup_logging (fun _ => true) ⟨2024, 1, 2, 3, 4, 5⟩ freshState
      "INFO" false "t.log" = Except.ok st2 ∧
      st2.stdout =
        [formatRecord ⟨⟨2024, 1, 2, 3, 4, 5⟩, "root", 20,
          "Logging initialized with level " ++ "INFO"⟩]) :=
  C10_initialization_records (fun _ => true) ⟨2024, 1, 2, 3, 4, 5⟩ "INFO"
    "t.log" 20 rfl (by norm_num) rfl

end Aichat
